import Mathlib

/-!
Verification of the gmailtracker backend's event-correlation engine
(`src/server.js`, "Enterprise Edition" revision: session-locked pixel
tracking, thread correlation, sigma aggregation, ad rotation).

The JavaScript handlers are shallowly embedded as pure Lean functions over an
explicit store (a list of `TrackedEmail` / `Ad` records standing for the
MongoDB collections).  Wall-clock times are `Int` milliseconds, matching JS
`Date` arithmetic.  Randomness (`$sample`) and storage success are passed in
as explicit parameters.
-/

/-! ## Character and string helpers (JS `\s`, `trim`, case-insensitive ops) -/

/-- Whitespace as recognised by the JS `\s` class and `String.prototype.trim`
(restricted to the ASCII range, which covers every subject handled here). -/
def isJsSpace (c : Char) : Bool :=
  c = ' ' || c = '\t' || c = '\n' || c = '\r' || c = '\x0b' || c = '\x0c'

/-- Case-insensitive literal prefix match: if `pat` is a case-insensitive
prefix of `l`, return the remainder of `l`, else `none`. -/
def matchCI : List Char → List Char → Option (List Char)
  | [], rest => some rest
  | _ :: _, [] => none
  | p :: ps, c :: cs => if p.toLower = c.toLower then matchCI ps cs else none

/-- JS `String.prototype.trim` on a character list. -/
def trimChars (l : List Char) : List Char :=
  ((l.dropWhile isJsSpace).reverse.dropWhile isJsSpace).reverse

/-- Case-insensitive substring test (`/tok/i.test s`). -/
def containsCI (s tok : String) : Bool :=
  (List.range (s.data.length + 1)).any fun p =>
    (matchCI tok.data (s.data.drop p)).isSome

/-! ## Subject canonicalizer

`function getCleanSubjectRegex(subject)` first computes
`subject.replace(/^(Re|Fwd|FW|re|fwd|Aw):\s*/i, "").trim()`.
The replace regex is anchored and non-global, so it removes at most one
leading marker.  Ordered-alternation backtracking of
`(Re|Fwd|FW|re|fwd|Aw):` under the `i` flag reduces to trying the
case-insensitive literals `re:`, `fwd:`, `fw:`, `aw:` in that order. -/

def stripOneMarker (l : List Char) : List Char :=
  match matchCI "re:".data l with
  | some rest => rest.dropWhile isJsSpace
  | none =>
    match matchCI "fwd:".data l with
    | some rest => rest.dropWhile isJsSpace
    | none =>
      match matchCI "fw:".data l with
      | some rest => rest.dropWhile isJsSpace
      | none =>
        match matchCI "aw:".data l with
        | some rest => rest.dropWhile isJsSpace
        | none => l

/-- The canonical ("clean") subject computed by `getCleanSubjectRegex`. -/
def getCleanSubject (s : String) : String :=
  String.mk (trimChars (stripOneMarker s.data))

/-- True iff the subject starts with one of the four reply/forward markers
(case-insensitively), i.e. iff the canonicalizer's replace step fires. -/
def startsWithMarker (s : String) : Bool :=
  (matchCI "re:".data s.data).isSome || (matchCI "fwd:".data s.data).isSome ||
  (matchCI "fw:".data s.data).isSome || (matchCI "aw:".data s.data).isSome

/-! ## A small JS-regex engine

`getCleanSubjectRegex` interpolates the cleaned subject directly into the
pattern source `^((Re|Fwd|FW|re|fwd|Aw):\s*)*${clean}$` (flag `i`), so the
subject text is parsed as regex syntax.  We embed the fragment of JS regex
syntax needed for that pattern shape: literals, `.`, escapes (`\s`, `\d`,
`\w` and their negations, plus identity escapes), groups, alternation,
`*`/`+`/`?` quantifiers and the `^`/`$` assertions.  A failed parse models a
`SyntaxError` thrown by the `RegExp` constructor. -/

inductive RCls where
  | ws
  | digit
  | word
deriving DecidableEq

inductive RNode where
  | eps : RNode
  | lit : Char → RNode
  | anyc : RNode
  | cls : RCls → Bool → RNode
  | seq : RNode → RNode → RNode
  | alt : RNode → RNode → RNode
  | star : RNode → RNode
  | bol : RNode
  | eol : RNode
deriving DecidableEq

/-- Anchors cannot be quantified (`/^*/` is "Nothing to repeat"). -/
def quantifiable : RNode → Bool
  | RNode.bol => false
  | RNode.eol => false
  | _ => true

mutual

def pAlt : Nat → List Char → Option (RNode × List Char)
  | 0, _ => none
  | Nat.succ f, cs =>
    match pCat f cs with
    | none => none
    | some (r, rest) =>
      match rest with
      | '|' :: rest2 =>
        match pAlt f rest2 with
        | none => none
        | some (r2, rest3) => some (RNode.alt r r2, rest3)
      | _ => some (r, rest)

def pCat : Nat → List Char → Option (RNode × List Char)
  | 0, _ => none
  | Nat.succ f, cs =>
    match cs with
    | [] => some (RNode.eps, [])
    | ')' :: _ => some (RNode.eps, cs)
    | '|' :: _ => some (RNode.eps, cs)
    | _ =>
      match pPiece f cs with
      | none => none
      | some (r, rest) =>
        match pCat f rest with
        | none => none
        | some (r2, rest2) => some (RNode.seq r r2, rest2)

def pPiece : Nat → List Char → Option (RNode × List Char)
  | 0, _ => none
  | Nat.succ f, cs =>
    match pAtom f cs with
    | none => none
    | some (r, rest) =>
      match rest with
      | '*' :: rest2 => if quantifiable r then some (RNode.star r, rest2) else none
      | '+' :: rest2 =>
        if quantifiable r then some (RNode.seq r (RNode.star r), rest2) else none
      | '?' :: rest2 => if quantifiable r then some (RNode.alt r RNode.eps, rest2) else none
      | _ => some (r, rest)

def pAtom : Nat → List Char → Option (RNode × List Char)
  | 0, _ => none
  | Nat.succ f, cs =>
    match cs with
    | [] => none
    | '(' :: rest =>
      match pAlt f rest with
      | some (r, ')' :: rest2) => some (r, rest2)
      | _ => none
    | ')' :: _ => none
    | '|' :: _ => none
    | '*' :: _ => none
    | '+' :: _ => none
    | '?' :: _ => none
    | '[' :: _ => none
    | ']' :: _ => none
    | '{' :: _ => none
    | '}' :: _ => none
    | '^' :: rest => some (RNode.bol, rest)
    | '$' :: rest => some (RNode.eol, rest)
    | '.' :: rest => some (RNode.anyc, rest)
    | '\\' :: [] => none
    | '\\' :: e :: rest =>
      if e = 's' then some (RNode.cls RCls.ws false, rest)
      else if e = 'S' then some (RNode.cls RCls.ws true, rest)
      else if e = 'd' then some (RNode.cls RCls.digit false, rest)
      else if e = 'D' then some (RNode.cls RCls.digit true, rest)
      else if e = 'w' then some (RNode.cls RCls.word false, rest)
      else if e = 'W' then some (RNode.cls RCls.word true, rest)
      else some (RNode.lit e, rest)
    | c :: rest => some (RNode.lit c, rest)

end

/-- Parse a whole pattern source; any leftover input (e.g. an unbalanced
closing paren) is a syntax error. -/
def parsePattern (cs : List Char) : Option RNode :=
  match pAlt (cs.length * 8 + 32) cs with
  | some (r, []) => some r
  | _ => none

def clsMem : RCls → Char → Bool
  | RCls.ws, c => isJsSpace c
  | RCls.digit, c => c.isDigit
  | RCls.word, c => c.isAlphanum || c = '_'

def rsize : RNode → Nat
  | RNode.eps => 1
  | RNode.lit _ => 1
  | RNode.anyc => 1
  | RNode.cls _ _ => 1
  | RNode.seq a b => rsize a + rsize b + 1
  | RNode.alt a b => rsize a + rsize b + 1
  | RNode.star a => rsize a + 1
  | RNode.bol => 1
  | RNode.eol => 1

/-- All end positions of matches of `r` starting at position `p` of `s`
(case-insensitive, flag `i`).  Star iterations that consume nothing are cut
off, as in JS. -/
def runR : Nat → RNode → List Char → Nat → List Nat
  | 0, _, _, _ => []
  | Nat.succ f, r, s, p =>
    match r with
    | RNode.eps => [p]
    | RNode.bol => if p = 0 then [p] else []
    | RNode.eol => if p = s.length then [p] else []
    | RNode.lit c =>
      match s.get? p with
      | some d => if d.toLower = c.toLower then [p + 1] else []
      | none => []
    | RNode.anyc =>
      match s.get? p with
      | some d => if d = '\n' || d = '\r' then [] else [p + 1]
      | none => []
    | RNode.cls k neg =>
      match s.get? p with
      | some d => if clsMem k d ≠ neg then [p + 1] else []
      | none => []
    | RNode.seq a b => (runR f a s p).flatMap fun q => runR f b s q
    | RNode.alt a b => runR f a s p ++ runR f b s p
    | RNode.star a =>
      p :: ((runR f a s p).flatMap fun q =>
        if p < q then runR f (RNode.star a) s q else [])

/-- JS `RegExp.prototype.test` / Mongo `$regex`: an (unanchored) search for a
match anywhere in the string. -/
def jsTest (r : RNode) (s : String) : Bool :=
  let cs := s.data
  (List.range (cs.length + 1)).any fun p =>
    !(runR ((cs.length + 2) * (rsize r + 2) * 2 + 8) r cs p).isEmpty

/-- `getCleanSubjectRegex` from `server.js`: `null` for a falsy subject,
otherwise the compiled pattern `^((Re|Fwd|FW|re|fwd|Aw):\s*)*${clean}$` with
the cleaned subject interpolated verbatim (unescaped).  `none` also models
the constructor throwing on a subject whose text is invalid regex syntax. -/
def getCleanSubjectRegex (s : String) : Option RNode :=
  if s = "" then none
  else
    parsePattern
      ("^((Re|Fwd|FW|re|fwd|Aw):\\s*)*".data ++ (getCleanSubject s).data ++ ['$'])

/-- Whether the `RegExp` construction for this subject succeeds. -/
def regexOk (s : String) : Bool :=
  (getCleanSubjectRegex s).isSome

/-- Whether the matcher built from subject `s` accepts the string `t`. -/
def subjectMatcherAccepts (s t : String) : Bool :=
  match getCleanSubjectRegex s with
  | some r => jsTest r t
  | none => false

/-! ## Data model

The `TrackedEmail` and `Ad` Mongo collections, embedded as record lists.
`registerEmail` normalises `parentId || null`, so an empty-string parent is
stored as `none`; arbitrary states may still carry `some ""`, and every
JS truthiness test on it is modelled explicitly. -/

structure OpenEvent where
  timestamp : Int
  ip : String
  userAgent : String
deriving DecidableEq, Repr

structure TrackedEmail where
  trackingId : String
  parentId : Option String
  senderEmail : String
  recipientEmails : List String
  subject : String
  opened : Bool
  openCount : Nat
  openHistory : List OpenEvent
  lastOpenedAt : Option Int
  createdAt : Int
deriving DecidableEq, Repr

structure Ad where
  adId : Nat
  clientName : String
  imageUrl : String
  adPlan : String
  maxViews : Nat
  currentViews : Nat
  isActive : Bool
  createdAt : Int
deriving DecidableEq, Repr

structure HttpResponse where
  status : Nat
  contentType : String
  cacheControl : String
  body : String
deriving DecidableEq, Repr

/-- The base64 source of the fixed 1x1 transparent GIF served by the pixel
route; the decoded bytes are a fixed function of this constant. -/
def pixelImageBase64 : String :=
  "R0lGODlhAQABAIAAAAAAAP///yH5BAEAAAAALAAAAAABAAEAAAIBRAA7"

/-- The pixel route's unique success response: the fixed image with
cache-disabling headers. -/
def pixelResponse : HttpResponse :=
  { status := 200
    contentType := "image/gif"
    cacheControl := "no-cache, no-store, must-revalidate, max-age=0"
    body := pixelImageBase64 }

/-- `res.status(500).send('Error')` in the pixel route's catch block. -/
def errorResponse : HttpResponse :=
  { status := 500, contentType := "", cacheControl := "", body := "Error" }

/-! ## Route 1: `POST /api/track/generate` -/

/-- Register an outbound message.  `trackingId` has a unique index, so a
duplicate insert fails (500) without changing the store.  The second
component reports success. -/
def registerEmail (s : List TrackedEmail) (id : String) (parentId : Option String)
    (sender : String) (recips : List String) (subject : String) (now : Int) :
    List TrackedEmail × Bool :=
  if s.any (fun e => e.trackingId == id) then (s, false)
  else
    (s ++ [{ trackingId := id
             parentId := match parentId with
               | some p => if p = "" then none else some p
               | none => none
             senderEmail := sender
             recipientEmails := recips
             subject := subject
             opened := false
             openCount := 0
             openHistory := []
             lastOpenedAt := none
             createdAt := now }], true)

/-! ## Route 2: `GET /api/track-image/:id` (the deduplicating pixel) -/

/-- `/bot|crawler|spider|facebookexternalhit/i.test(userAgent)`. -/
def isBotUA (ua : String) : Bool :=
  ["bot", "crawler", "spider", "facebookexternalhit"].any fun t => containsCI ua t

/-- The 5-minute session lock: reject when the most recent recorded event
came from the same IP less than 5 minutes (300000 ms) ago.  JS computes
`(now - last.timestamp) / 1000 / 60 < 5` on millisecond deltas, which is
equivalent to the integer comparison used here. -/
def sessionLocked (e : TrackedEmail) (ip : String) (now : Int) : Bool :=
  match e.openHistory.getLast? with
  | none => false
  | some last => last.ip == ip && decide (now - last.timestamp < 300000)

/-- The accepted-open mutation: set `opened`, bump `openCount`, append one
event, stamp `lastOpenedAt`. -/
def acceptOpen (e : TrackedEmail) (ip ua : String) (now : Int) : TrackedEmail :=
  { e with
    opened := true
    openCount := e.openCount + 1
    openHistory := e.openHistory ++ [{ timestamp := now, ip := ip, userAgent := ua }]
    lastOpenedAt := some now }

/-- `email.save()` persists the one document `findOne` returned: replace the
first store entry carrying this tracking id. -/
def updateFirst (s : List TrackedEmail) (id : String) (e' : TrackedEmail) :
    List TrackedEmail :=
  match s with
  | [] => []
  | e :: rest => if e.trackingId == id then e' :: rest else e :: updateFirst rest id e'

/-- The pixel handler.  `senderCookie` is `req.cookies['vitsn_sender'] === 'true'`;
`saveOk` is whether the store write succeeds (a failed `save` throws into the
catch block, which answers 500 and leaves the store unchanged). -/
def trackImage (s : List TrackedEmail) (id ip ua : String) (senderCookie : Bool)
    (now : Int) (saveOk : Bool) : List TrackedEmail × HttpResponse :=
  if isBotUA ua || senderCookie then (s, pixelResponse)
  else
    match s.find? (fun e => e.trackingId == id) with
    | none => (s, pixelResponse)
    | some e =>
      if sessionLocked e ip now then (s, pixelResponse)
      else if saveOk then (updateFirst s id (acceptOpen e ip ua now), pixelResponse)
      else (s, errorResponse)

/-! ## Route 4: `GET /api/check-status` (thread correlation + aggregation) -/

/-- JS truthiness of an optional query-string value. -/
def qTruthy : Option String → Bool
  | none => false
  | some s => !(s == "")

/-- Ascending `createdAt` order (Mongo `sort({ createdAt: 1 })`, ties kept in
store order via stable insertion sort). -/
def createdLe (a b : TrackedEmail) : Prop := a.createdAt ≤ b.createdAt

/-- Descending `createdAt` order (`sort({ createdAt: -1 })`). -/
def createdGe (a b : TrackedEmail) : Prop := b.createdAt ≤ a.createdAt

instance : DecidableRel createdLe := fun _ _ => Int.decLe _ _
instance : DecidableRel createdGe := fun _ _ => Int.decLe _ _
instance : IsTotal TrackedEmail createdLe := ⟨fun _ _ => Int.le_total _ _⟩
instance : IsTrans TrackedEmail createdLe := ⟨fun _ _ _ h h' => le_trans h h'⟩
instance : IsTotal TrackedEmail createdGe := ⟨fun _ _ => Int.le_total _ _⟩
instance : IsTrans TrackedEmail createdGe := ⟨fun _ _ _ h h' => le_trans h' h⟩

def sortByCreatedAsc (l : List TrackedEmail) : List TrackedEmail :=
  List.insertionSort createdLe l

def sortByCreatedDesc (l : List TrackedEmail) : List TrackedEmail :=
  List.insertionSort createdGe l

/-- `target.parentId || target.trackingId`: the thread root. -/
def threadRoot (target : TrackedEmail) : String :=
  match target.parentId with
  | some p => if p = "" then target.trackingId else p
  | none => target.trackingId

/-- The one-level family fetched by Strategy A:
`{ $or: [ { trackingId: rootId }, { parentId: rootId } ] }`. -/
def familyOf (s : List TrackedEmail) (root : String) : List TrackedEmail :=
  s.filter fun e => e.trackingId == root || e.parentId == some root

/-- Strategy A: resolve the seed by id, then fetch and sort its family. -/
def strategyA (s : List TrackedEmail) (tid : String) : List TrackedEmail :=
  match s.find? (fun e => e.trackingId == tid) with
  | none => []
  | some target => sortByCreatedAsc (familyOf s (threadRoot target))

/-- The Thread Correlator of `GET /api/check-status`: Strategy A when a
truthy `trackingId` is given, otherwise (or when it yields nothing) the
subject-cluster fallback.  `Except.error` models the handler's catch block
answering 500 (here only reachable through a `RegExp` constructor throw). -/
def correlate (s : List TrackedEmail) (tidQ subjQ : Option String) :
    Except Unit (List TrackedEmail) :=
  let emailsA := if qTruthy tidQ then strategyA s (tidQ.getD "") else []
  if emailsA.isEmpty && qTruthy subjQ then
    match getCleanSubjectRegex (subjQ.getD "") with
    | none => Except.error ()
    | some r =>
      let raw := sortByCreatedDesc (s.filter fun e => jsTest r e.subject)
      if raw.isEmpty then Except.ok [] else Except.ok raw.reverse
  else Except.ok emailsA

structure BreakdownEntry where
  index : Nat
  date : Int
  openCount : Nat
  isReply : Bool
  lastRead : Option Int
deriving DecidableEq, Repr

structure StatusResponse where
  found : Bool
  opened : Bool
  openCount : Nat
  totalThreadOpens : Nat
  threadBreakdown : List BreakdownEntry
deriving DecidableEq, Repr

/-- `{ found: false }` (all other JSON fields absent, modelled as defaults). -/
def notFoundResponse : StatusResponse :=
  { found := false, opened := false, openCount := 0, totalThreadOpens := 0,
    threadBreakdown := [] }

/-- Per-message breakdown entries:
`{ index: i+1, date, openCount, isReply: !!parentId || i > 0, lastRead }`. -/
def breakdownOf (emails : List TrackedEmail) : List BreakdownEntry :=
  emails.enum.map fun ie =>
    { index := ie.fst + 1
      date := ie.snd.createdAt
      openCount := ie.snd.openCount
      isReply := qTruthy ie.snd.parentId || decide (0 < ie.fst)
      lastRead := (ie.snd.openHistory.getLast?).map (fun ev => ev.timestamp) }

/-- `emails.reduce((acc, email) => acc + email.openCount, 0)`. -/
def totalOpens (emails : List TrackedEmail) : Nat :=
  emails.foldl (fun acc e => acc + e.openCount) 0

/-- The Thread Aggregator: headline from the last (newest) message of the
ordered sequence, sigma total over the whole sequence. -/
def buildStatusResponse (emails : List TrackedEmail) : StatusResponse :=
  match emails.getLast? with
  | none => notFoundResponse
  | some latest =>
    { found := true
      opened := latest.opened
      openCount := latest.openCount
      totalThreadOpens := totalOpens emails
      threadBreakdown := breakdownOf emails }

/-- The full `GET /api/check-status` handler. -/
def checkStatus (s : List TrackedEmail) (tidQ subjQ : Option String) :
    Except Unit StatusResponse :=
  (correlate s tidQ subjQ).map buildStatusResponse

/-! ## Route 3: `GET /api/ads/serve` -/

/-- The reserved client name of the distinguished fallback ad. -/
def fallbackName : String := "VITSN Innovations"

/-- The `$match` stage: active, non-fallback, under its view cap. -/
def adEligible (a : Ad) : Bool :=
  a.isActive && a.clientName != fallbackName && decide (a.currentViews < a.maxViews)

/-- `$sample: { size: 1 }` over the eligible ads, with the random draw
supplied as `choice`, falling back to `findOne({ clientName: fallback })`. -/
def selectAd (ads : List Ad) (choice : Nat) : Option Ad :=
  let elig := ads.filter adEligible
  match elig.get? (choice % elig.length) with
  | some a => some a
  | none => ads.find? fun a => a.clientName == fallbackName

/-- `updateOne({ _id }, { $inc: { currentViews: 1 } })`. -/
def bumpFirst (ads : List Ad) (i : Nat) : List Ad :=
  match ads with
  | [] => []
  | a :: rest =>
    if a.adId == i then { a with currentViews := a.currentViews + 1 } :: rest
    else a :: bumpFirst rest i

structure AdResponse where
  found : Bool
  clientName : String
  imageUrl : String
deriving DecidableEq, Repr

/-- The ad-serving handler: sample an eligible ad (charging its view) or fall
back, uncharged, to the fallback ad; a hard-coded placeholder if even the
fallback record is missing. -/
def serveAd (ads : List Ad) (choice : Nat) : List Ad × AdResponse :=
  match selectAd ads choice with
  | some a =>
    if a.clientName == fallbackName then (ads, ⟨true, a.clientName, a.imageUrl⟩)
    else (bumpFirst ads a.adId, ⟨true, a.clientName, a.imageUrl⟩)
  | none => (ads, ⟨true, "VITSN", "https://dummyimage.com/600x80/ccc/000&text=Ads"⟩)

/-! ## Operation sequences over the tracking store -/

inductive Op where
  | register (id : String) (parentId : Option String) (sender : String)
      (recips : List String) (subject : String) (now : Int)
  | pixel (id ip ua : String) (senderCookie : Bool) (now : Int) (saveOk : Bool)
  | status (tidQ subjQ : Option String)
deriving DecidableEq, Repr

/-- One request against the tracking store (status queries are read-only). -/
def stepOp (s : List TrackedEmail) : Op → List TrackedEmail
  | Op.register id p sd rc sb now => (registerEmail s id p sd rc sb now).fst
  | Op.pixel id ip ua ck now sv => (trackImage s id ip ua ck now sv).fst
  | Op.status _ _ => s

/-- The store reached from empty by a request sequence. -/
def runOps (ops : List Op) : List TrackedEmail :=
  ops.foldl stepOp []

/-! ## Recipient-overlap matcher (`areRecipientsSame` in `server.js`) -/

/-- `e.toLowerCase().trim()`. -/
def normAddr (s : String) : String :=
  String.mk (trimChars (s.data.map Char.toLower))

/-- True iff the two recipient lists share at least one normalised address
(the JS builds two normalised `Set`s and scans for a common member). -/
def areRecipientsSame (listA listB : List String) : Bool :=
  listA.any fun a => listB.any fun b => normAddr a == normAddr b

/-! ## Concrete fixtures used by witnesses and counterexamples -/

/-- A one-message demo store: `m1` registered at t = 0. -/
def demoStore : List TrackedEmail :=
  (registerEmail [] "m1" none "s@x.com" ["r@y.com"] "Hello" 0).fst

def c1demoOps : List Op :=
  [Op.register "m1" none "s@x.com" ["r@y.com"] "Hello" 0,
   Op.pixel "m1" "1.2.3.4" "Mozilla/5.0" false 5 true]

def c1demoEmail : TrackedEmail :=
  { trackingId := "m1", parentId := none, senderEmail := "s@x.com",
    recipientEmails := ["r@y.com"], subject := "Hello", opened := true,
    openCount := 1,
    openHistory := [{ timestamp := 5, ip := "1.2.3.4", userAgent := "Mozilla/5.0" }],
    lastOpenedAt := some 5, createdAt := 0 }

/-- Registration of `m1` for the C2 scenario. -/
def c2reg : Op := Op.register "m1" none "s@x.com" ["r@y.com"] "Hello" 0

/-- A pixel fetch for `m1` from the fixed IP at time `t` (milliseconds). -/
def c2px (t : Int) : Op := Op.pixel "m1" "1.2.3.4" "Mozilla/5.0" false t true

/-- The `openCount` of `m1` after a request sequence. -/
def openCountAfter (ops : List Op) : Option Nat :=
  ((runOps ops).find? fun x => x.trackingId == "m1").map fun x => x.openCount

/-- The store state of the C2 scenario after the accepted fetch at t = 0. -/
def c2demoEmail : TrackedEmail :=
  { trackingId := "m1", parentId := none, senderEmail := "s@x.com",
    recipientEmails := ["r@y.com"], subject := "Hello", opened := true,
    openCount := 1,
    openHistory := [{ timestamp := 0, ip := "1.2.3.4", userAgent := "Mozilla/5.0" }],
    lastOpenedAt := some 0, createdAt := 0 }

/-- C4 fixture: two messages share the subject `Project X` but have disjoint
recipient lists. -/
def c4store : List TrackedEmail :=
  runOps [Op.register "m1" none "s@x.com" ["a@x.com"] "Project X" 0,
          Op.register "m2" none "s@x.com" ["b@y.com"] "Project X" 100]

/-- C7 fixture: root `r1` at t = 0, reply `r2` (with `parentId = "r1"`) at
t = 100. -/
def c7store : List TrackedEmail :=
  runOps [Op.register "r1" none "s@x.com" ["a@x.com"] "Project X" 0,
          Op.register "r2" (some "r1") "s@x.com" ["a@x.com"] "Re: Project X" 100]

/-- The reply record of the C7 fixture as stored by registration. -/
def c7reply : TrackedEmail :=
  { trackingId := "r2", parentId := some "r1", senderEmail := "s@x.com",
    recipientEmails := ["a@x.com"], subject := "Re: Project X", opened := false,
    openCount := 0, openHistory := [], lastOpenedAt := none, createdAt := 100 }

/-- C8 fixture: a three-message thread with open counts 1, 0, 2; the newest
message is opened. -/
def c8thread : List TrackedEmail :=
  [{ trackingId := "t1", parentId := none, senderEmail := "s@x.com",
     recipientEmails := ["a@x.com"], subject := "T", opened := true, openCount := 1,
     openHistory := [{ timestamp := 10, ip := "1.1.1.1", userAgent := "UA" }],
     lastOpenedAt := some 10, createdAt := 0 },
   { trackingId := "t2", parentId := some "t1", senderEmail := "s@x.com",
     recipientEmails := ["a@x.com"], subject := "Re: T", opened := false, openCount := 0,
     openHistory := [], lastOpenedAt := none, createdAt := 1 },
   { trackingId := "t3", parentId := some "t1", senderEmail := "s@x.com",
     recipientEmails := ["a@x.com"], subject := "Re: T", opened := true, openCount := 2,
     openHistory := [{ timestamp := 20, ip := "1.1.1.1", userAgent := "UA" },
                     { timestamp := 990020, ip := "1.1.1.1", userAgent := "UA" }],
     lastOpenedAt := some 990020, createdAt := 2 }]

/-- The newest (last) message of the C8 fixture thread. -/
def c8latest : TrackedEmail :=
  { trackingId := "t3", parentId := some "t1", senderEmail := "s@x.com",
    recipientEmails := ["a@x.com"], subject := "Re: T", opened := true, openCount := 2,
    openHistory := [{ timestamp := 20, ip := "1.1.1.1", userAgent := "UA" },
                    { timestamp := 990020, ip := "1.1.1.1", userAgent := "UA" }],
    lastOpenedAt := some 990020, createdAt := 2 }

/-- C9 fixture: the fallback ad plus one eligible paying ad. -/
def c9ads : List Ad :=
  [{ adId := 1, clientName := "VITSN Innovations", imageUrl := "fb.png",
     adPlan := "ultra", maxViews := 999999999, currentViews := 0, isActive := true,
     createdAt := 0 },
   { adId := 2, clientName := "Acme", imageUrl := "acme.png", adPlan := "basic",
     maxViews := 1000, currentViews := 7, isActive := true, createdAt := 1 }]

/-! ## Supporting lemmas -/

lemma updateFirst_mem {s : List TrackedEmail} {id : String} {e' x : TrackedEmail}
    (hx : x ∈ updateFirst s id e') : x ∈ s ∨ x = e' := by
  induction s with
  | nil => simp [updateFirst] at hx
  | cons a rest ih =>
    unfold updateFirst at hx
    by_cases h : (a.trackingId == id) = true
    · rw [if_pos h] at hx
      rcases List.mem_cons.mp hx with h1 | h1
      · exact Or.inr h1
      · exact Or.inl (List.mem_cons_of_mem _ h1)
    · rw [if_neg h] at hx
      rcases List.mem_cons.mp hx with h1 | h1
      · exact Or.inl (h1 ▸ List.mem_cons_self _ _)
      · rcases ih h1 with h2 | h2
        · exact Or.inl (List.mem_cons_of_mem _ h2)
        · exact Or.inr h2

lemma updateFirst_find {s : List TrackedEmail} {id : String} {e e' : TrackedEmail}
    (hfind : s.find? (fun x => x.trackingId == id) = some e)
    (hid : e'.trackingId = e.trackingId) :
    (updateFirst s id e').find? (fun x => x.trackingId == id) = some e' := by
  induction s with
  | nil => simp at hfind
  | cons a rest ih =>
    by_cases h : (a.trackingId == id) = true
    · rw [List.find?_cons_of_pos (p := fun x => x.trackingId == id) rest h] at hfind
      have hae : a = e := Option.some.inj hfind
      have he' : (e'.trackingId == id) = true := by
        rw [hid, ← hae]; exact h
      unfold updateFirst
      rw [if_pos h, List.find?_cons_of_pos (p := fun x => x.trackingId == id) rest he']
    · rw [List.find?_cons_of_neg (p := fun x => x.trackingId == id) rest h] at hfind
      unfold updateFirst
      rw [if_neg h,
        List.find?_cons_of_neg (p := fun x => x.trackingId == id) (updateFirst rest id e') h]
      exact ih hfind

lemma dropWhile_idem (p : Char → Bool) (l : List Char) :
    List.dropWhile p (List.dropWhile p l) = List.dropWhile p l := by
  induction l with
  | nil => rfl
  | cons c cs ih =>
    by_cases h : p c = true
    · rw [List.dropWhile_cons, if_pos h]; exact ih
    · rw [List.dropWhile_cons, if_neg h, List.dropWhile_cons, if_neg h]

lemma isSome_false_eq_none {α : Type} {o : Option α} (h : o.isSome = false) : o = none := by
  cases o with
  | none => rfl
  | some a => simp at h

lemma totalOpens_eq_sum (l : List TrackedEmail) :
    totalOpens l = (l.map (fun e => e.openCount)).sum := by
  have key : ∀ (l : List TrackedEmail) (acc : Nat),
      l.foldl (fun a e => a + e.openCount) acc = acc + (l.map (fun e => e.openCount)).sum := by
    intro l
    induction l with
    | nil => intro acc; simp
    | cons e rest ih =>
      intro acc
      simp only [List.foldl_cons, List.map_cons, List.sum_cons]
      rw [ih (acc + e.openCount)]
      omega
  simpa using key l 0

lemma getLast?_mem_self {α : Type} {l : List α} {x : α} (h : l.getLast? = some x) :
    x ∈ l := by
  rcases List.mem_getLast?_eq_getLast (l := l) (x := x) h with ⟨hne, rfl⟩
  exact List.getLast_mem hne

lemma sorted_createdAt_le_getLast {l : List TrackedEmail} {x : TrackedEmail}
    (hs : List.Sorted createdLe l) (hx : l.getLast? = some x) :
    ∀ e ∈ l, e.createdAt ≤ x.createdAt := by
  induction l with
  | nil => intro e he; cases he
  | cons a rest ih =>
    intro e he
    cases rest with
    | nil =>
      have hea : e = a := List.mem_singleton.mp he
      have hax : a = x := by simpa using hx
      rw [hea, hax]
    | cons b t =>
      have hx' : (b :: t).getLast? = some x := by
        rw [← List.getLast?_cons_cons (l := t) (a := a) (b := b)]; exact hx
      have hs' : List.Sorted createdLe (b :: t) := hs.of_cons
      rcases List.mem_cons.mp he with rfl | hmem
      · have hxmem : x ∈ b :: t := getLast?_mem_self hx'
        exact (List.rel_of_sorted_cons hs) x hxmem
      · exact ih hs' hx' e hmem

/-- The per-message invariant of claim C1. -/
def emailInv (s : List TrackedEmail) : Prop :=
  ∀ e ∈ s, e.openCount = e.openHistory.length

lemma emailInv_step (s : List TrackedEmail) (op : Op) (h : emailInv s) :
    emailInv (stepOp s op) := by
  cases op with
  | register id p sd rc sb now =>
    simp only [stepOp, registerEmail]
    split
    · exact h
    · intro e he
      rcases List.mem_append.mp he with h1 | h1
      · exact h e h1
      · rcases List.mem_singleton.mp h1 with rfl
        rfl
  | pixel id ip ua ck now sv =>
    simp only [stepOp, trackImage]
    split
    · exact h
    · cases hf : s.find? (fun e => e.trackingId == id) with
      | none => simpa [hf] using h
      | some e =>
        simp only [hf]
        split
        · exact h
        · split
          · intro x hx
            rcases updateFirst_mem hx with h1 | h1
            · exact h x h1
            · subst h1
              have he : e.openCount = e.openHistory.length :=
                h e (List.mem_of_find?_eq_some hf)
              simp [acceptOpen, he]
          · exact h
  | status tq sq => exact h


/-! ## Claim theorems -/

/-- C1: for every TrackedMessage and after any sequence of operations
(registration, pixel fetches accepted or rejected, status queries) starting
from the empty store, the message's `openCount` equals the length of its
`openHistory`: registration creates the record with count 0 and empty
history, and the only mutation (`acceptOpen`) appends exactly one event
while incrementing the count by exactly one. -/
theorem c1_openCount_matches_history (ops : List Op) (e : TrackedEmail)
    (he : e ∈ runOps ops) : e.openCount = e.openHistory.length := by
  have key : ∀ (l : List Op) (s : List TrackedEmail),
      emailInv s → emailInv (l.foldl stepOp s) := by
    intro l
    induction l with
    | nil => intro s hs; exact hs
    | cons op rest ih => intro s hs; exact ih _ (emailInv_step s op hs)
  exact key ops [] (fun x hx => absurd hx (List.not_mem_nil x)) e he

theorem c1_openCount_matches_history_witness :
    c1demoEmail ∈ runOps c1demoOps ∧
    c1demoEmail.openCount = c1demoEmail.openHistory.length :=
  ⟨by decide, c1_openCount_matches_history c1demoOps c1demoEmail (by decide)⟩

/-- C5: a pixel fetch whose user agent contains (case-insensitively) one of
the fixed non-human tokens (`bot`, `crawler`, `spider`,
`facebookexternalhit`) is rejected with no state mutated, for every store,
IP, cookie, time, and storage outcome; the fixed image is still served. -/
theorem c5_bot_fetch_rejected (s : List TrackedEmail) (id ip ua : String)
    (ck : Bool) (now : Int) (sv : Bool) (h : isBotUA ua = true) :
    trackImage s id ip ua ck now sv = (s, pixelResponse) := by
  simp [trackImage, h]

theorem c5_bot_fetch_rejected_witness :
    isBotUA "Googlebot/2.1" = true ∧
    trackImage demoStore "m1" "9.9.9.9" "Googlebot/2.1" false 50 true =
      (demoStore, pixelResponse) :=
  ⟨by decide,
    c5_bot_fetch_rejected demoStore "m1" "9.9.9.9" "Googlebot/2.1" false 50 true
      (by decide)⟩

/-- C6 counterexample: the claim says the pixel route returns the identical
image bytes in the storage-failure case as well ("the open event is silently
dropped but the image is still served").  In the code a failed `save` throws
into the catch block, which answers `500 'Error'` instead of the image:
fetching `m1` (registered, non-bot, non-sender, unlocked — the fetch would
be accepted) with a failing store yields the error response. -/
theorem c6_counterexample_storage_failure :
    (trackImage demoStore "m1" "1.2.3.4" "Mozilla/5.0" false 1000 false).snd =
      errorResponse ∧
    errorResponse ≠ pixelResponse := by decide

/-- C6 amended: the pixel route returns the identical fixed image with
cache-disabling headers for every outcome while storage succeeds (accepted
open, bot rejection, sender-session rejection, session-lock rejection,
unknown id); when the store write fails the open event is dropped (store
unchanged) but the response is a 500 error, not the image — the image is
still returned on the reject paths that never reach the write. -/
theorem c6_pixel_response_uniform (s : List TrackedEmail) (id ip ua : String)
    (ck : Bool) (now : Int) :
    (trackImage s id ip ua ck now true).snd = pixelResponse ∧
    (trackImage s id ip ua ck now false).fst = s ∧
    ((trackImage s id ip ua ck now false).snd = pixelResponse ∨
      (trackImage s id ip ua ck now false).snd = errorResponse) := by
  refine ⟨?_, ?_, ?_⟩
  · unfold trackImage
    split
    · rfl
    · split
      · rfl
      · split
        · rfl
        · simp
  · unfold trackImage
    split
    · rfl
    · split
      · rfl
      · split
        · rfl
        · simp
  · unfold trackImage
    split
    · exact Or.inl rfl
    · split
      · exact Or.inl rfl
      · split
        · exact Or.inl rfl
        · simp

/-- C3 counterexample: the canonicalizer does not strip repeated markers —
`"Re: Fwd: Project X"` canonicalizes to `"Fwd: Project X"`, not to
`"Project X"`, so the claimed equality
`canonicalize("Re: Fwd: Project X") == canonicalize("Project X")` fails. -/
theorem c3_counterexample_double_marker :
    getCleanSubject "Re: Fwd: Project X" ≠ getCleanSubject "Project X" := by decide

/-- C10: the matcher is built by interpolating the stripped subject into the
pattern source without escaping, so (a) a subject consisting of an
unbalanced `(` makes the `RegExp` construction itself fail, (b) the subject
`a$b` (whose canonical form is itself, still containing the `$`
metacharacter) yields a matcher that rejects that very subject, while
(c) metacharacter-free subjects such as `Project X` (and the marker-
prefixed `Re: Test`) are accepted by their own matchers. -/
theorem c10_regex_reflexivity_break :
    regexOk "(" = false ∧
    getCleanSubject "a$b" = "a$b" ∧
    regexOk "a$b" = true ∧
    subjectMatcherAccepts "a$b" "a$b" = false ∧
    subjectMatcherAccepts "Project X" "Project X" = true ∧
    subjectMatcherAccepts "Re: Test" "Re: Test" = true := by decide

/-- C2: for a message with at least one prior open event, a non-bot,
non-sender pixel fetch from the same IP as the most recent prior event is
rejected with no state change while the elapsed time is under 5 minutes
(300000 ms), and accepted — appending one event and incrementing the count —
once the window has passed; concretely, fetches for one id from one IP at
t = 0 s, 120 s and 400 s leave `openCount` at 1, 1 and 2 respectively. -/
theorem c2_session_lock_window (s : List TrackedEmail) (id ip ua : String)
    (now : Int) (e : TrackedEmail) (last : OpenEvent)
    (hnb : isBotUA ua = false)
    (hfind : s.find? (fun x => x.trackingId == id) = some e)
    (hlast : e.openHistory.getLast? = some last)
    (hip : last.ip = ip) :
    (now - last.timestamp < 300000 →
      trackImage s id ip ua false now true = (s, pixelResponse)) ∧
    (300000 ≤ now - last.timestamp →
      trackImage s id ip ua false now true =
        (updateFirst s id (acceptOpen e ip ua now), pixelResponse) ∧
      ((updateFirst s id (acceptOpen e ip ua now)).find?
          (fun x => x.trackingId == id)).map (fun x => x.openCount) =
        some (e.openCount + 1)) ∧
    (openCountAfter [c2reg, c2px 0] = some 1 ∧
      openCountAfter [c2reg, c2px 0, c2px 120000] = some 1 ∧
      openCountAfter [c2reg, c2px 0, c2px 120000, c2px 400000] = some 2) := by
  refine ⟨?_, ?_, by decide⟩
  · intro hlt
    have hlock : sessionLocked e ip now = true := by
      unfold sessionLocked
      rw [hlast]
      simp [hip, hlt]
    simp [trackImage, hnb, hfind, hlock]
  · intro hge
    have hlock : sessionLocked e ip now = false := by
      simp only [sessionLocked, hlast]
      rw [decide_eq_false (not_lt.mpr hge), Bool.and_false]
    constructor
    · simp [trackImage, hnb, hfind, hlock]
    · have hid : (acceptOpen e ip ua now).trackingId = e.trackingId := rfl
      rw [updateFirst_find hfind hid]
      simp [acceptOpen]

theorem c2_session_lock_window_witness :
    trackImage (runOps [c2reg, c2px 0]) "m1" "1.2.3.4" "Mozilla/5.0" false 120000 true =
      (runOps [c2reg, c2px 0], pixelResponse) :=
  (c2_session_lock_window (runOps [c2reg, c2px 0]) "m1" "1.2.3.4" "Mozilla/5.0" 120000
    c2demoEmail { timestamp := 0, ip := "1.2.3.4", userAgent := "Mozilla/5.0" }
    (by decide) (by decide) (by decide) rfl).1 (by decide)

lemma matchCI_cons_pos {p c : Char} (ps cs : List Char) (h : p.toLower = c.toLower) :
    matchCI (p :: ps) (c :: cs) = matchCI ps cs := by
  simp [matchCI, h]

lemma matchCI_cons_neg {p c : Char} (ps cs : List Char) (h : ¬p.toLower = c.toLower) :
    matchCI (p :: ps) (c :: cs) = none := by
  simp [matchCI, h]

lemma matchCI_nil (cs : List Char) : matchCI [] cs = some cs := rfl

lemma stripOneMarker_re (rest : List Char) :
    stripOneMarker ('R' :: 'e' :: ':' :: rest) = rest.dropWhile isJsSpace := by
  have h1 : matchCI "re:".data ('R' :: 'e' :: ':' :: rest) = some rest := by
    show matchCI ['r', 'e', ':'] _ = some rest
    rw [matchCI_cons_pos _ _ (by decide), matchCI_cons_pos _ _ (by decide),
      matchCI_cons_pos _ _ (by decide), matchCI_nil]
  simp only [stripOneMarker, h1]

lemma stripOneMarker_fwd (rest : List Char) :
    stripOneMarker ('F' :: 'w' :: 'd' :: ':' :: rest) = rest.dropWhile isJsSpace := by
  have h1 : matchCI "re:".data ('F' :: 'w' :: 'd' :: ':' :: rest) = none := by
    show matchCI ['r', 'e', ':'] _ = none
    exact matchCI_cons_neg _ _ (by decide)
  have h2 : matchCI "fwd:".data ('F' :: 'w' :: 'd' :: ':' :: rest) = some rest := by
    show matchCI ['f', 'w', 'd', ':'] _ = some rest
    rw [matchCI_cons_pos _ _ (by decide), matchCI_cons_pos _ _ (by decide),
      matchCI_cons_pos _ _ (by decide), matchCI_cons_pos _ _ (by decide), matchCI_nil]
  simp only [stripOneMarker, h1, h2]

lemma stripOneMarker_fw (rest : List Char) :
    stripOneMarker ('F' :: 'W' :: ':' :: rest) = rest.dropWhile isJsSpace := by
  have h1 : matchCI "re:".data ('F' :: 'W' :: ':' :: rest) = none := by
    show matchCI ['r', 'e', ':'] _ = none
    exact matchCI_cons_neg _ _ (by decide)
  have h2 : matchCI "fwd:".data ('F' :: 'W' :: ':' :: rest) = none := by
    show matchCI ['f', 'w', 'd', ':'] _ = none
    rw [matchCI_cons_pos _ _ (by decide), matchCI_cons_pos _ _ (by decide),
      matchCI_cons_neg _ _ (by decide)]
  have h3 : matchCI "fw:".data ('F' :: 'W' :: ':' :: rest) = some rest := by
    show matchCI ['f', 'w', ':'] _ = some rest
    rw [matchCI_cons_pos _ _ (by decide), matchCI_cons_pos _ _ (by decide),
      matchCI_cons_pos _ _ (by decide), matchCI_nil]
  simp only [stripOneMarker, h1, h2, h3]

lemma stripOneMarker_aw (rest : List Char) :
    stripOneMarker ('A' :: 'w' :: ':' :: rest) = rest.dropWhile isJsSpace := by
  have h1 : matchCI "re:".data ('A' :: 'w' :: ':' :: rest) = none := by
    show matchCI ['r', 'e', ':'] _ = none
    exact matchCI_cons_neg _ _ (by decide)
  have h2 : matchCI "fwd:".data ('A' :: 'w' :: ':' :: rest) = none := by
    show matchCI ['f', 'w', 'd', ':'] _ = none
    exact matchCI_cons_neg _ _ (by decide)
  have h3 : matchCI "fw:".data ('A' :: 'w' :: ':' :: rest) = none := by
    show matchCI ['f', 'w', ':'] _ = none
    exact matchCI_cons_neg _ _ (by decide)
  have h4 : matchCI "aw:".data ('A' :: 'w' :: ':' :: rest) = some rest := by
    show matchCI ['a', 'w', ':'] _ = some rest
    rw [matchCI_cons_pos _ _ (by decide), matchCI_cons_pos _ _ (by decide),
      matchCI_cons_pos _ _ (by decide), matchCI_nil]
  simp only [stripOneMarker, h1, h2, h3, h4]

lemma trimChars_dropWhile (l : List Char) :
    trimChars (l.dropWhile isJsSpace) = trimChars l := by
  unfold trimChars
  rw [dropWhile_idem]

lemma getCleanSubject_no_marker {S : String} (h : startsWithMarker S = false) :
    getCleanSubject S = String.mk (trimChars S.data) := by
  have h4 := h
  simp only [startsWithMarker, Bool.or_eq_false_iff] at h4
  obtain ⟨⟨⟨hre, hfwd⟩, hfw⟩, haw⟩ := h4
  have hre' := isSome_false_eq_none hre
  have hfwd' := isSome_false_eq_none hfwd
  have hfw' := isSome_false_eq_none hfw
  have haw' := isSome_false_eq_none haw
  unfold getCleanSubject
  simp only [stripOneMarker, hre', hfwd', hfw', haw']

/-- C3 (amended): the canonicalizer strips exactly one leading
reply/forward marker.  Prepending a single `Re:`/`Fwd:`/`FW:`/`Aw:` prefix
to a subject that does not itself start with a marker leaves the canonical
subject unchanged, but stacked markers are not collapsed:
`canonicalize("Re: Fwd: Project X") = "Fwd: Project X" ≠ "Project X"`;
distinct base subjects stay distinct
(`canonicalize("Project X 2") ≠ canonicalize("Project X")`). -/
theorem c3_single_marker_canonicalizer (S : String)
    (h : startsWithMarker S = false) :
    getCleanSubject ("Re: " ++ S) = getCleanSubject S ∧
    getCleanSubject ("Fwd: " ++ S) = getCleanSubject S ∧
    getCleanSubject ("FW: " ++ S) = getCleanSubject S ∧
    getCleanSubject ("Aw: " ++ S) = getCleanSubject S ∧
    getCleanSubject "Re: Fwd: Project X" = "Fwd: Project X" ∧
    getCleanSubject "Project X 2" ≠ getCleanSubject "Project X" := by
  have hS := getCleanSubject_no_marker h
  have hsp : (' ' :: S.data).dropWhile isJsSpace = S.data.dropWhile isJsSpace := by
    rw [List.dropWhile_cons, if_pos (by decide)]
  refine ⟨?_, ?_, ?_, ?_, by decide, by decide⟩
  · have hdata : ("Re: " ++ S).data = 'R' :: 'e' :: ':' :: ' ' :: S.data := by
      rw [String.data_append]; rfl
    unfold getCleanSubject
    rw [hdata, stripOneMarker_re, hsp, trimChars_dropWhile]
    exact hS.symm
  · have hdata : ("Fwd: " ++ S).data = 'F' :: 'w' :: 'd' :: ':' :: ' ' :: S.data := by
      rw [String.data_append]; rfl
    unfold getCleanSubject
    rw [hdata, stripOneMarker_fwd, hsp, trimChars_dropWhile]
    exact hS.symm
  · have hdata : ("FW: " ++ S).data = 'F' :: 'W' :: ':' :: ' ' :: S.data := by
      rw [String.data_append]; rfl
    unfold getCleanSubject
    rw [hdata, stripOneMarker_fw, hsp, trimChars_dropWhile]
    exact hS.symm
  · have hdata : ("Aw: " ++ S).data = 'A' :: 'w' :: ':' :: ' ' :: S.data := by
      rw [String.data_append]; rfl
    unfold getCleanSubject
    rw [hdata, stripOneMarker_aw, hsp, trimChars_dropWhile]
    exact hS.symm

theorem c3_single_marker_canonicalizer_witness :
    startsWithMarker "Project X" = false ∧
    (getCleanSubject ("Re: " ++ "Project X") = getCleanSubject "Project X" ∧
      getCleanSubject ("Fwd: " ++ "Project X") = getCleanSubject "Project X" ∧
      getCleanSubject ("FW: " ++ "Project X") = getCleanSubject "Project X" ∧
      getCleanSubject ("Aw: " ++ "Project X") = getCleanSubject "Project X" ∧
      getCleanSubject "Re: Fwd: Project X" = "Fwd: Project X" ∧
      getCleanSubject "Project X 2" ≠ getCleanSubject "Project X") :=
  ⟨by decide, c3_single_marker_canonicalizer "Project X" (by decide)⟩

/-- C4 counterexample: with no id given, seed unknown, the most recent
subject-matching candidate is `m2` (recipients `b@y.com`), and `m1`
(recipients `a@x.com`) does not overlap it — yet the fallback thread
contains both messages (breakdown of length 2), so the result is not
restricted to the recipient-overlapping subset as the claim states. -/
theorem c4_counterexample_no_recipient_filter :
    areRecipientsSame ["a@x.com"] ["b@y.com"] = false ∧
    (checkStatus c4store none (some "Project X")).toOption.map
      (fun r => r.threadBreakdown.length) = some 2 := by decide

/-- C4 (amended): on the subject-fallback path the returned thread is all
subject-matching messages (fetched newest-first, then reversed to oldest-
first) with no recipient-overlap restriction — `areRecipientsSame` is never
applied on this path, a shortcut the code's own comment acknowledges. -/
theorem c4_subject_cluster_unfiltered (s : List TrackedEmail) (subj : String)
    (hs : ¬subj = "") (hok : regexOk subj = true)
    (hne : ¬s.filter (fun e => subjectMatcherAccepts subj e.subject) = []) :
    ∃ resp, checkStatus s none (some subj) = Except.ok resp ∧
      resp.found = true ∧
      resp.threadBreakdown.length =
        (s.filter (fun e => subjectMatcherAccepts subj e.subject)).length := by
  cases heq : getCleanSubjectRegex subj with
  | none =>
    unfold regexOk at hok
    rw [heq] at hok
    simp at hok
  | some r =>
    have hfc : s.filter (fun e => subjectMatcherAccepts subj e.subject) =
        s.filter (fun e => jsTest r e.subject) :=
      List.filter_congr (fun x _ => by simp [subjectMatcherAccepts, heq])
    rw [hfc] at hne ⊢
    have hlen : (sortByCreatedDesc (s.filter (fun e => jsTest r e.subject))).length =
        (s.filter (fun e => jsTest r e.subject)).length :=
      List.length_insertionSort _ _
    have hsne : ¬sortByCreatedDesc (s.filter (fun e => jsTest r e.subject)) = [] := by
      intro hnil
      rw [hnil] at hlen
      exact hne (List.length_eq_zero.mp hlen.symm)
    have hraw : (sortByCreatedDesc (s.filter (fun e => jsTest r e.subject))).isEmpty = false := by
      cases hc : sortByCreatedDesc (s.filter (fun e => jsTest r e.subject)) with
      | nil => exact absurd hc hsne
      | cons a t => rfl
    have hbeq : (subj == "") = false := by simp [hs]
    have hcor : correlate s none (some subj) =
        Except.ok (sortByCreatedDesc (s.filter (fun e => jsTest r e.subject))).reverse := by
      simp [correlate, qTruthy, hbeq, heq, hraw]
    have hrevne : ¬(sortByCreatedDesc (s.filter (fun e => jsTest r e.subject))).reverse = [] := by
      intro hnil
      have hlr := congrArg List.length hnil
      rw [List.length_reverse, hlen] at hlr
      exact hne (List.length_eq_zero.mp hlr)
    obtain ⟨latest, hlatest⟩ :=
      Option.isSome_iff_exists.mp (List.getLast?_isSome.mpr hrevne)
    refine ⟨buildStatusResponse
        (sortByCreatedDesc (s.filter (fun e => jsTest r e.subject))).reverse, ?_, ?_, ?_⟩
    · unfold checkStatus
      rw [hcor]
      rfl
    · unfold buildStatusResponse
      simp only [hlatest]
    · unfold buildStatusResponse
      simp only [hlatest]
      show (breakdownOf _).length = _
      unfold breakdownOf
      rw [List.length_map, List.enum_length, List.length_reverse, hlen]

theorem c4_subject_cluster_unfiltered_witness :
    ∃ resp, checkStatus demoStore none (some "Hello") = Except.ok resp ∧
      resp.found = true ∧
      resp.threadBreakdown.length =
        (demoStore.filter
          (fun e => subjectMatcherAccepts "Hello" e.subject)).length :=
  c4_subject_cluster_unfiltered demoStore "Hello" (by decide) (by decide) (by decide)

/-- C7: on the explicit-id path, the thread root is the seed's `parentId`
when (truthy-)set and otherwise its own id; the assembled thread is exactly
the store messages whose id equals the root or whose `parentId` equals the
root (one level), ordered ascending by `createdAt`; concretely, after
registering root `r1` and reply `r2` with `parentId = "r1"`, a status query
for `r2` reports the thread `[r1, r2]` with `isReply` flags
`[false, true]`. -/
theorem c7_thread_root_family (s : List TrackedEmail) (tid : String)
    (target : TrackedEmail) (ht : ¬tid = "")
    (hfind : s.find? (fun e => e.trackingId == tid) = some target) :
    (∃ thread, correlate s (some tid) none = Except.ok thread ∧
      (∀ e, e ∈ thread ↔
        (e ∈ s ∧ (e.trackingId = threadRoot target ∨
          e.parentId = some (threadRoot target)))) ∧
      List.Sorted createdLe thread) ∧
    ((checkStatus c7store (some "r2") none).toOption.map
        (fun resp => resp.threadBreakdown.map fun b => (b.index, b.date, b.isReply)) =
      some [(1, (0 : Int), false), (2, (100 : Int), true)]) := by
  constructor
  · refine ⟨sortByCreatedAsc (familyOf s (threadRoot target)), ?_, ?_, ?_⟩
    · have hbeq : (tid == "") = false := by simp [ht]
      have hsa : strategyA s tid = sortByCreatedAsc (familyOf s (threadRoot target)) := by
        unfold strategyA
        simp only [hfind]
      simp [correlate, qTruthy, hbeq, hsa, Bool.and_false]
    · intro e
      unfold sortByCreatedAsc familyOf
      rw [List.mem_insertionSort, List.mem_filter]
      simp
    · exact List.sorted_insertionSort createdLe _
  · decide

theorem c7_thread_root_family_witness :
    ∃ thread, correlate c7store (some "r2") none = Except.ok thread ∧
      (∀ e, e ∈ thread ↔
        (e ∈ c7store ∧ (e.trackingId = threadRoot c7reply ∨
          e.parentId = some (threadRoot c7reply)))) ∧
      List.Sorted createdLe thread :=
  ((c7_thread_root_family c7store "r2" c7reply (by decide) (by decide)).1)

/-- C8: for every non-empty ordered thread, the aggregator's
`totalThreadOpens` is the sum of `openCount` over all messages, while the
headline `opened`/`openCount` come solely from the last (newest-by-
`createdAt`) message; in the concrete thread with open counts `[1, 0, 2]`
the total is 3 while the headline reflects only the newest message. -/
theorem c8_sigma_aggregation (emails : List TrackedEmail) (latest : TrackedEmail)
    (hlast : emails.getLast? = some latest)
    (hsorted : List.Sorted createdLe emails) :
    (buildStatusResponse emails).found = true ∧
    (buildStatusResponse emails).totalThreadOpens =
      (emails.map (fun e => e.openCount)).sum ∧
    (buildStatusResponse emails).opened = latest.opened ∧
    (buildStatusResponse emails).openCount = latest.openCount ∧
    (∀ e ∈ emails, e.createdAt ≤ latest.createdAt) ∧
    ((buildStatusResponse c8thread).totalThreadOpens = 3 ∧
      (buildStatusResponse c8thread).openCount = 2 ∧
      (buildStatusResponse c8thread).opened = true) := by
  have hb : buildStatusResponse emails =
      { found := true, opened := latest.opened, openCount := latest.openCount,
        totalThreadOpens := totalOpens emails,
        threadBreakdown := breakdownOf emails } := by
    unfold buildStatusResponse
    simp only [hlast]
  refine ⟨by rw [hb], ?_, by rw [hb], by rw [hb],
    sorted_createdAt_le_getLast hsorted hlast, by decide⟩
  rw [hb]
  exact totalOpens_eq_sum emails

theorem c8_sigma_aggregation_witness :
    (buildStatusResponse c8thread).found = true ∧
    (buildStatusResponse c8thread).totalThreadOpens =
      (c8thread.map (fun e => e.openCount)).sum ∧
    (buildStatusResponse c8thread).opened = c8latest.opened ∧
    (buildStatusResponse c8thread).openCount = c8latest.openCount ∧
    (∀ e ∈ c8thread, e.createdAt ≤ c8latest.createdAt) ∧
    ((buildStatusResponse c8thread).totalThreadOpens = 3 ∧
      (buildStatusResponse c8thread).openCount = 2 ∧
      (buildStatusResponse c8thread).opened = true) :=
  c8_sigma_aggregation c8thread c8latest (by decide) (by decide)

lemma bumpFirst_mem_ne {ads : List Ad} {i : Nat} {x : Ad}
    (hx : x ∈ ads) (hne : ¬x.adId = i) : x ∈ bumpFirst ads i := by
  induction ads with
  | nil => cases hx
  | cons a rest ih =>
    unfold bumpFirst
    by_cases h : (a.adId == i) = true
    · rw [if_pos h]
      rcases List.mem_cons.mp hx with rfl | hmem
      · exact absurd (beq_iff_eq.mp h) hne
      · exact List.mem_cons_of_mem _ hmem
    · rw [if_neg h]
      rcases List.mem_cons.mp hx with rfl | hmem
      · exact List.mem_cons_self _ _
      · exact List.mem_cons_of_mem _ (ih hmem)

lemma selectAd_mem {ads : List Ad} {choice : Nat} {a : Ad}
    (h : selectAd ads choice = some a) : a ∈ ads := by
  simp only [selectAd] at h
  cases hg : (ads.filter adEligible).get? (choice % (ads.filter adEligible).length) with
  | some b =>
    rw [hg] at h
    have hba : b = a := Option.some.inj h
    have hbm : b ∈ ads := (List.mem_filter.mp (List.get?_mem hg)).1
    exact hba ▸ hbm
  | none =>
    rw [hg] at h
    exact List.mem_of_find?_eq_some h

/-- C9: the ad allocator only ever selects an active, under-cap,
non-fallback ad when one exists, and otherwise the distinguished fallback
ad; it never changes any fallback-named record (in particular its
`currentViews`), and an ad whose `currentViews` has reached `maxViews` is
never selected.  Store ids are assumed pairwise distinct, as Mongo `_id`s
are. -/
theorem c9_ad_allocator_cap (ads : List Ad) (choice : Nat)
    (hids : (ads.map (fun a => a.adId)).Nodup) :
    (∀ a, selectAd ads choice = some a →
      ((a.isActive = true ∧ ¬a.clientName = fallbackName ∧
          a.currentViews < a.maxViews) ∨
        (ads.filter adEligible = [] ∧ a.clientName = fallbackName))) ∧
    (∀ f ∈ ads, f.clientName = fallbackName → f ∈ (serveAd ads choice).fst) ∧
    (∀ a ∈ ads, ¬a.clientName = fallbackName → a.maxViews ≤ a.currentViews →
      ¬selectAd ads choice = some a) := by
  have hsel : ∀ a, selectAd ads choice = some a →
      ((a.isActive = true ∧ ¬a.clientName = fallbackName ∧
          a.currentViews < a.maxViews) ∨
        (ads.filter adEligible = [] ∧ a.clientName = fallbackName)) := by
    intro a h
    simp only [selectAd] at h
    cases hg : (ads.filter adEligible).get? (choice % (ads.filter adEligible).length) with
    | some b =>
      rw [hg] at h
      have hba : b = a := Option.some.inj h
      left
      have helig : adEligible a = true := by
        rw [← hba]
        exact (List.mem_filter.mp (List.get?_mem hg)).2
      unfold adEligible at helig
      simp only [Bool.and_eq_true, bne_iff_ne, decide_eq_true_eq] at helig
      exact ⟨helig.1.1, helig.1.2, helig.2⟩
    | none =>
      rw [hg] at h
      right
      have hcn := List.find?_some h
      have hget := List.get?_eq_none.mp hg
      have hempty : ads.filter adEligible = [] := by
        rcases Nat.eq_zero_or_pos (ads.filter adEligible).length with h0 | hpos
        · exact List.length_eq_zero.mp h0
        · exact absurd hget (not_le.mpr (Nat.mod_lt _ hpos))
      exact ⟨hempty, by simpa using hcn⟩
  refine ⟨hsel, ?_, ?_⟩
  · intro f hf hname
    unfold serveAd
    cases hs : selectAd ads choice with
    | none =>
      simp only [hs]
      exact hf
    | some a =>
      simp only [hs]
      by_cases hcn : (a.clientName == fallbackName) = true
      · rw [if_pos hcn]
        exact hf
      · rw [if_neg hcn]
        apply bumpFirst_mem_ne hf
        intro hideq
        have hamem : a ∈ ads := selectAd_mem hs
        have hfa : f = a := List.inj_on_of_nodup_map hids hf hamem hideq
        rw [hfa] at hname
        exact hcn (by simp [hname])
  · intro a ha hnf hcap h
    rcases hsel a h with ⟨_, _, hlt⟩ | ⟨_, hfb⟩
    · exact absurd hlt (not_lt.mpr hcap)
    · exact hnf hfb

theorem c9_ad_allocator_cap_witness :
    (∀ a, selectAd c9ads 0 = some a →
      ((a.isActive = true ∧ ¬a.clientName = fallbackName ∧
          a.currentViews < a.maxViews) ∨
        (c9ads.filter adEligible = [] ∧ a.clientName = fallbackName))) ∧
    (∀ f ∈ c9ads, f.clientName = fallbackName → f ∈ (serveAd c9ads 0).fst) ∧
    (∀ a ∈ c9ads, ¬a.clientName = fallbackName → a.maxViews ≤ a.currentViews →
      ¬selectAd c9ads 0 = some a) :=
  c9_ad_allocator_cap c9ads 0 (by decide)
